import Mathlib

/-!
Verification development for the slice_queue repository.

The repository contains two generations of the library:
  - src/queue.rs with src/mem.rs and src/traits.rs: the current
    implementation, where the strategy choice (raw-memory vs. safe) is
    factored into the mem module and zero limits are rejected by asserts;
  - src/lib.rs: the legacy self-contained implementation, with the two
    strategies inlined into each operation and no zero-limit asserts.

Both are embedded below.  Rust machine integers (usize) are modelled as
Nat: every arithmetic operation used by the code is a checked/saturating
subtraction, a min, a comparison or a guarded addition, so no wraparound
is observable.  A Rust panic is modelled as Option.none; functions without
a panic path are total.  Vec capacity is carried explicitly in the state;
reallocation on append is modelled as growing capacity to the new length
when needed, and shrink_to_fit as setting capacity to the length.
-/

/-- usize::MAX on a 64-bit target, the default limit of a SliceQueue. -/
def usizeMax : Nat := 2 ^ 64 - 1

namespace mem

namespace usafe

/-- Embeds mem.rs usafe::discard_n: asserts n <= vec.len(), then copies the
remaining elements to the front and shrinks the length; the live region
afterwards holds vec with its first n elements removed. -/
def discard_n (vec : List α) (n : Nat) : Option (List α) :=
  if n ≤ vec.length then
    some ((vec.drop n).take (vec.length - n))
  else none

/-- Embeds mem.rs usafe::drop_n: destructs the first n elements in place
(a no-op under value semantics) and discards them from the vector. -/
def drop_n (vec : List α) (n : Nat) : Option (List α) :=
  if n ≤ vec.length then discard_n vec n else none

/-- Embeds mem.rs usafe::drain_n: copies the first n elements of src into a
fresh vector and discards them from src.  Returns (drained, new src). -/
def drain_n (src : List α) (n : Nat) : Option (List α × List α) :=
  if n ≤ src.length then
    let dst := src.take n
    (discard_n src n).map (fun src2 => (dst, src2))
  else none

/-- Embeds mem.rs usafe::drain_into: destructs the prior occupants of dst,
copies the first dst.len() elements of src over them and discards those
elements from src.  Returns (new dst, new src). -/
def drain_into (src dst : List α) : Option (List α × List α) :=
  if dst.length ≤ src.length then
    (discard_n src dst.length).map (fun src2 => (src.take dst.length, src2))
  else none

end usafe

namespace safe

/-- Embeds mem.rs safe::drop_n: src.drain(..n), which panics when
n > src.len(). -/
def drop_n (src : List α) (n : Nat) : Option (List α) :=
  if n ≤ src.length then some (src.drop n) else none

/-- Embeds mem.rs safe::drain_n: src.drain(..n).collect().
Returns (drained, new src). -/
def drain_n (src : List α) (n : Nat) : Option (List α × List α) :=
  if n ≤ src.length then some (src.take n, src.drop n) else none

/-- Embeds mem.rs safe::drain_into: drains dst.len() elements from src and
writes them over dst in order.  Returns (new dst, new src). -/
def drain_into (src dst : List α) : Option (List α × List α) :=
  if dst.length ≤ src.length then
    some (src.take dst.length, src.drop dst.length)
  else none

end safe

/-- The build-time default (feature unsafe_fast_code disabled) re-exports
the safe strategy, mirroring the cfg dispatch at the top of mem.rs. -/
def drop_n (src : List α) (n : Nat) : Option (List α) := safe.drop_n src n

/-- Build-time default re-export of drain_n (safe strategy). -/
def drain_n (src : List α) (n : Nat) : Option (List α × List α) :=
  safe.drain_n src n

/-- Build-time default re-export of drain_into (safe strategy). -/
def drain_into (src dst : List α) : Option (List α × List α) :=
  safe.drain_into src dst

end mem

/-- Embeds the AutoShrinkMode enum of queue.rs. -/
inductive AutoShrinkMode where
  | Opportunistic
  | Aggressive
  | Disabled
deriving DecidableEq, Repr

/-- Default::default() for AutoShrinkMode is Opportunistic. -/
def AutoShrinkMode.defaultMode : AutoShrinkMode := .Opportunistic

/-- Embeds the SliceQueue struct of queue.rs: a backing Vec (live elements
plus its allocated capacity), the size limit and the auto-shrink mode. -/
structure SliceQueue (α : Type) where
  backing : List α
  capacity : Nat
  limit : Nat
  auto_shrink_mode : AutoShrinkMode
deriving Repr

namespace SliceQueue

variable {α : Type} {ε : Type}

/-- SliceQueue::new(): empty backing, limit usize::MAX, default mode. -/
def new : SliceQueue α :=
  ⟨[], 0, usizeMax, AutoShrinkMode.defaultMode⟩

/-- SliceQueue::with_capacity(n): preallocates n slots. -/
def with_capacity (n : Nat) : SliceQueue α :=
  ⟨[], n, usizeMax, AutoShrinkMode.defaultMode⟩

/-- SliceQueue::with_limit(limit): asserts limit > 0 (panic on 0). -/
def with_limit (limit : Nat) : Option (SliceQueue α) :=
  if 0 < limit then some ⟨[], 0, limit, AutoShrinkMode.defaultMode⟩ else none

/-- SliceQueue::set_auto_shrink_mode. -/
def set_auto_shrink_mode (q : SliceQueue α) (mode : AutoShrinkMode) :
    SliceQueue α :=
  { q with auto_shrink_mode := mode }

/-- SliceQueue::set_limit(limit): asserts limit > 0 (panic on 0). -/
def set_limit (q : SliceQueue α) (limit : Nat) : Option (SliceQueue α) :=
  if 0 < limit then some { q with limit := limit } else none

/-- ReadableSliceQueue::len. -/
def len (q : SliceQueue α) : Nat := q.backing.length

/-- ReadableSliceQueue::is_empty. -/
def is_empty (q : SliceQueue α) : Bool := q.backing.isEmpty

/-- SliceQueue::shrink_to_fit: reallocates the backing to exactly fit. -/
def shrink_to_fit (q : SliceQueue α) : SliceQueue α :=
  { q with capacity := q.len }

/-- SliceQueue::shrink_opportunistic: shrinks to fit only if more than 4
elements are used and at most half of the capacity is used or the capacity
exceeds the limit. -/
def shrink_opportunistic (q : SliceQueue α) : SliceQueue α :=
  let half_capacity := if q.capacity = 0 then 0 else q.capacity / 2
  if 4 < q.len ∧ (q.len ≤ half_capacity ∨ q.limit < q.capacity) then
    q.shrink_to_fit
  else q

/-- SliceQueue::auto_shrink: dispatches on the auto-shrink mode. -/
def auto_shrink (q : SliceQueue α) : SliceQueue α :=
  match q.auto_shrink_mode with
  | .Opportunistic => q.shrink_opportunistic
  | .Aggressive => q.shrink_to_fit
  | .Disabled => q

/-- WriteableSliceQueue::remaining: limit.checked_sub(len).unwrap_or(0),
which is exactly Nat truncated subtraction. -/
def remaining (q : SliceQueue α) : Nat := q.limit - q.len

/-- WriteableSliceQueue::reserve_n: clips the request to
limit.checked_sub(capacity).unwrap_or(0) and calls reserve_exact, which
guarantees capacity for len + to_reserve elements. -/
def reserve_n (q : SliceQueue α) (n : Nat) :
    Except Nat Unit × SliceQueue α :=
  let to_reserve := min (q.limit - q.capacity) n
  let q2 := { q with capacity := max q.capacity (q.len + to_reserve) }
  (if to_reserve = n then .ok () else .error to_reserve, q2)

/-- WriteableSliceQueue::reserved: capacity - len. -/
def reserved (q : SliceQueue α) : Nat := q.capacity - q.len

/-- WriteableSliceQueue::push: appends iff remaining() >= 1, otherwise
returns the element to the caller. -/
def push (q : SliceQueue α) (element : α) : Except α Unit × SliceQueue α :=
  if 1 ≤ q.remaining then
    (.ok (), { q with backing := q.backing ++ [element],
                      capacity := max q.capacity (q.len + 1) })
  else (.error element, q)

/-- WriteableSliceQueue::push_n: appends all of n if it fits below the
limit, otherwise splits off the rejected suffix at remaining() and appends
only the kept prefix. -/
def push_n (q : SliceQueue α) (n : List α) :
    Except (List α) Unit × SliceQueue α :=
  if n.length ≤ q.remaining then
    (.ok (), { q with backing := q.backing ++ n,
                      capacity := max q.capacity (q.len + n.length) })
  else
    let rejected := n.drop q.remaining
    let kept := n.take q.remaining
    (.error rejected, { q with backing := q.backing ++ kept,
                               capacity := max q.capacity (q.len + q.remaining) })

/-- WriteableSliceQueue::push_from: clones and appends the first
min(remaining, src.len()) elements of src. -/
def push_from (q : SliceQueue α) (src : List α) :
    Except Nat Unit × SliceQueue α :=
  let to_append := min q.remaining src.length
  let q2 := { q with backing := q.backing ++ src.take to_append,
                     capacity := max q.capacity (q.len + to_append) }
  (if to_append = src.length then .ok () else .error to_append, q2)

/-- WriteableSliceQueue::push_in_place: asserts len + n <= limit (panic
otherwise), appends n default elements, hands the new tail slice to
push_fn (modelled as returning its result together with the mutated
slice), panics if push_fn claims more than n elements, truncates to the
claimed count (0 on error) and shrinks opportunistically. -/
def push_in_place [Inhabited α] (q : SliceQueue α) (n : Nat)
    (push_fn : List α → Except ε Nat × List α) :
    Option (Except ε Nat × SliceQueue α) :=
  if q.len + n ≤ q.limit then
    let old_len := q.len
    let filled := push_fn (List.replicate n (default : α))
    let keep : Option Nat :=
      match filled.1 with
      | .ok pushed => if n < pushed then none else some pushed
      | .error _ => some 0
    keep.map (fun k =>
      let backing2 := (q.backing ++ filled.2).take (old_len + k)
      let q2 := { q with backing := backing2,
                         capacity := max q.capacity (old_len + n) }
      (filled.1, q2.shrink_opportunistic))
  else none

/-- ReadableSliceQueue::pop: removes and returns the front element, then
auto-shrinks; fails on an empty queue. -/
def pop (q : SliceQueue α) : Except Unit α × SliceQueue α :=
  match q.backing with
  | [] => (.error (), q)
  | x :: rest => (.ok x, auto_shrink { q with backing := rest })

/-- ReadableSliceQueue::pop_n: drains min(len, n) front elements via
mem::drain_n, auto-shrinks and discriminates full from partial success. -/
def pop_n (q : SliceQueue α) (n : Nat) :
    Option (Except (List α) (List α) × SliceQueue α) :=
  let to_consume := min q.len n
  (mem.drain_n q.backing to_consume).map (fun p =>
    let q2 := auto_shrink { q with backing := p.2 }
    (if to_consume = n then .ok p.1 else .error p.1, q2))

/-- ReadableSliceQueue::pop_into: drains min(len, dst.len()) front elements
into the prefix of dst via mem::drain_into, auto-shrinks and reports
whether dst was filled completely.  Returns (result, new dst, new queue). -/
def pop_into (q : SliceQueue α) (dst : List α) :
    Option (Except Nat Unit × List α × SliceQueue α) :=
  let to_move := min q.len dst.length
  (mem.drain_into q.backing (dst.take to_move)).map (fun p =>
    let q2 := auto_shrink { q with backing := p.2 }
    (if to_move = dst.length then .ok () else .error to_move,
     p.1 ++ dst.drop to_move, q2))

/-- ReadableSliceQueue::drop_n: discards min(len, n) front elements via
mem::drop_n, auto-shrinks and reports whether n were discarded. -/
def drop_n (q : SliceQueue α) (n : Nat) :
    Option (Except Nat Unit × SliceQueue α) :=
  let to_drop := min q.len n
  (mem.drop_n q.backing to_drop).map (fun b =>
    (if to_drop = n then .ok () else .error to_drop,
     auto_shrink { q with backing := b }))

/-- Clone for SliceQueue: clones the backing and keeps the limit, but the
auto-shrink mode is rebuilt with Default::default(). -/
def clone (q : SliceQueue α) : SliceQueue α :=
  ⟨q.backing, q.backing.length, q.limit, AutoShrinkMode.defaultMode⟩

end SliceQueue

/-- Embeds the legacy SliceQueue struct of lib.rs (no auto-shrink mode). -/
structure LibSliceQueue (α : Type) where
  backing : List α
  capacity : Nat
  limit : Nat
deriving Repr

namespace LibSliceQueue

variable {α : Type}

/-- lib.rs SliceQueue::with_limit: stores the limit without any assert, so
a limit of 0 is accepted. -/
def with_limit (limit : Nat) : LibSliceQueue α :=
  ⟨[], 0, limit⟩

/-- lib.rs SliceQueue::set_limit: overwrites the limit without any assert,
so a limit of 0 is accepted. -/
def set_limit (q : LibSliceQueue α) (limit : Nat) : LibSliceQueue α :=
  { q with limit := limit }

/-- lib.rs SliceQueue::len. -/
def len (q : LibSliceQueue α) : Nat := q.backing.length

/-- lib.rs SliceQueue::shrink_opportunistic, identical to the queue.rs
condition. -/
def shrink_opportunistic (q : LibSliceQueue α) : LibSliceQueue α :=
  let half_capacity := if q.capacity = 0 then 0 else q.capacity / 2
  if 4 < q.len ∧ (q.len ≤ half_capacity ∨ q.limit < q.capacity) then
    { q with capacity := q.len }
  else q

/-- lib.rs SliceQueue::pop_n under feature unsafe_fast_code: copies
to_consume = min(len, n) elements out, then shifts the remainder with
ptr::copy(self.backing[n..].as_ptr(), ...).  The slice index backing[n..]
panics whenever n exceeds the length, so that case is none. -/
def pop_n_raw (q : LibSliceQueue α) (n : Nat) :
    Option (Except (List α) (List α) × LibSliceQueue α) :=
  let to_consume := min q.len n
  if n ≤ q.len then
    let elements := q.backing.take to_consume
    let remaining := q.len - to_consume
    let backing2 := (q.backing.drop n).take remaining
    let q2 := shrink_opportunistic { q with backing := backing2 }
    some (if to_consume = n then .ok elements else .error elements, q2)
  else none

/-- lib.rs SliceQueue::pop_n without feature unsafe_fast_code: drains
to_consume = min(len, n) elements from the front and collects them. -/
def pop_n_safe (q : LibSliceQueue α) (n : Nat) :
    Except (List α) (List α) × LibSliceQueue α :=
  let to_consume := min q.len n
  let elements := q.backing.take to_consume
  let q2 := shrink_opportunistic { q with backing := q.backing.drop to_consume }
  (if to_consume = n then .ok elements else .error elements, q2)

end LibSliceQueue

/-- One queue operation of the push/pop family named by the limit-invariant
property; push_in_place carries its fill callback (error type Unit). -/
inductive Op (α : Type) where
  | push (x : α)
  | push_n (xs : List α)
  | push_from (xs : List α)
  | push_in_place (n : Nat) (f : List α → Except Unit Nat × List α)
  | pop
  | pop_n (n : Nat)
  | pop_into (dst : List α)
  | drop_n (n : Nat)

/-- Applies one operation to a queue, keeping only the resulting state;
none when the operation panics. -/
def applyOp [Inhabited α] (q : SliceQueue α) : Op α → Option (SliceQueue α)
  | .push x => some (q.push x).2
  | .push_n xs => some (q.push_n xs).2
  | .push_from xs => some (q.push_from xs).2
  | .push_in_place n f => (q.push_in_place n f).map (fun p => p.2)
  | .pop => some q.pop.2
  | .pop_n n => (q.pop_n n).map (fun p => p.2)
  | .pop_into dst => (q.pop_into dst).map (fun p => p.2.2)
  | .drop_n n => (q.drop_n n).map (fun p => p.2)

/-- Runs a sequence of operations from a starting state. -/
def runOps [Inhabited α] (q : SliceQueue α) : List (Op α) → Option (SliceQueue α)
  | [] => some q
  | op :: ops => (applyOp q op).bind (fun q2 => runOps q2 ops)

/-! Helper lemmas shared by the claim theorems. -/

namespace SliceQueue

variable {α : Type}

@[simp]
lemma shrink_to_fit_backing (q : SliceQueue α) :
    q.shrink_to_fit.backing = q.backing := rfl

@[simp]
lemma shrink_to_fit_limit (q : SliceQueue α) :
    q.shrink_to_fit.limit = q.limit := rfl

@[simp]
lemma shrink_opportunistic_backing (q : SliceQueue α) :
    q.shrink_opportunistic.backing = q.backing := by
  unfold shrink_opportunistic
  dsimp only
  split <;> split <;> rfl

@[simp]
lemma shrink_opportunistic_limit (q : SliceQueue α) :
    q.shrink_opportunistic.limit = q.limit := by
  unfold shrink_opportunistic
  dsimp only
  split <;> split <;> rfl

@[simp]
lemma auto_shrink_backing (q : SliceQueue α) :
    q.auto_shrink.backing = q.backing := by
  unfold auto_shrink
  split <;> simp

@[simp]
lemma auto_shrink_limit (q : SliceQueue α) :
    q.auto_shrink.limit = q.limit := by
  unfold auto_shrink
  split <;> simp

lemma len_eq (q : SliceQueue α) : q.len = q.backing.length := rfl

end SliceQueue

namespace mem

variable {α : Type}

lemma drop_n_eq_of_le {src : List α} {n : Nat} (h : n ≤ src.length) :
    mem.drop_n src n = some (src.drop n) := by
  simp [mem.drop_n, mem.safe.drop_n, h]

lemma drain_n_eq_of_le {src : List α} {n : Nat} (h : n ≤ src.length) :
    mem.drain_n src n = some (src.take n, src.drop n) := by
  simp [mem.drain_n, mem.safe.drain_n, h]

lemma drain_into_eq_of_le {src dst : List α} (h : dst.length ≤ src.length) :
    mem.drain_into src dst = some (src.take dst.length, src.drop dst.length) := by
  simp [mem.drain_into, mem.safe.drain_into, h]

end mem

lemma mem.usafe.discard_n_eq_of_le {α : Type} {vec : List α} {n : Nat}
    (h : n ≤ vec.length) :
    mem.usafe.discard_n vec n = some (vec.drop n) := by
  unfold mem.usafe.discard_n
  rw [if_pos h]
  congr 1
  exact List.take_of_length_le (by simp)

/-- C10: clone() produces a queue with the same elements and the same limit
as the source, but the auto-shrink mode of the clone is always reset to the
default Opportunistic, even when the source's mode was different. -/
theorem C10_clone_resets_auto_shrink_mode (α : Type) (q : SliceQueue α)
    (m : AutoShrinkMode) :
    q.clone.backing = q.backing ∧
    q.clone.limit = q.limit ∧
    q.clone.auto_shrink_mode = AutoShrinkMode.Opportunistic ∧
    (q.set_auto_shrink_mode m).clone.auto_shrink_mode =
      AutoShrinkMode.Opportunistic :=
  ⟨rfl, rfl, rfl, rfl⟩

/-- C5: shrink_opportunistic reallocates the backing store to fit the
current length exactly when length > 4 and (length <= capacity/2 or
capacity > limit) and is a no-op otherwise; for length <= 4 no shrink ever
occurs; auto_shrink dispatches to the opportunistic check in Opportunistic
mode, shrinks to fit in Aggressive mode, and does nothing in Disabled
mode. -/
theorem C5_shrink_trigger (α : Type) (q : SliceQueue α) :
    q.shrink_opportunistic =
      (if 4 < q.len ∧ (q.len ≤ q.capacity / 2 ∨ q.limit < q.capacity)
       then q.shrink_to_fit else q) ∧
    q.shrink_to_fit.capacity = q.len ∧
    (q.len ≤ 4 → q.shrink_opportunistic = q) ∧
    (q.auto_shrink_mode = AutoShrinkMode.Opportunistic →
      q.auto_shrink = q.shrink_opportunistic) ∧
    (q.auto_shrink_mode = AutoShrinkMode.Aggressive →
      q.auto_shrink = q.shrink_to_fit) ∧
    (q.auto_shrink_mode = AutoShrinkMode.Disabled → q.auto_shrink = q) := by
  have hhalf : (if q.capacity = 0 then 0 else q.capacity / 2) =
      q.capacity / 2 := by
    split <;> simp_all
  refine ⟨?_, rfl, ?_, ?_, ?_, ?_⟩
  · unfold SliceQueue.shrink_opportunistic
    dsimp only
    rw [hhalf]
  · intro h
    unfold SliceQueue.shrink_opportunistic
    dsimp only
    rw [if_neg]
    intro hc
    exact absurd hc.1 (by omega)
  all_goals intro h
  all_goals simp [SliceQueue.auto_shrink, h]

/-- Witness for C5 at concrete queues: a queue of length 1 is never shrunk,
and the three modes dispatch as stated. -/
theorem C5_shrink_trigger_witness :
    (⟨[0], 14, 10, AutoShrinkMode.Opportunistic⟩ : SliceQueue Nat).len ≤ 4 ∧
    (⟨[0], 14, 10, AutoShrinkMode.Opportunistic⟩ :
        SliceQueue Nat).shrink_opportunistic =
      ⟨[0], 14, 10, AutoShrinkMode.Opportunistic⟩ ∧
    (⟨[1, 2], 3, 9, AutoShrinkMode.Opportunistic⟩ :
        SliceQueue Nat).auto_shrink =
      (⟨[1, 2], 3, 9, AutoShrinkMode.Opportunistic⟩ :
        SliceQueue Nat).shrink_opportunistic ∧
    (⟨[1, 2], 3, 9, AutoShrinkMode.Aggressive⟩ : SliceQueue Nat).auto_shrink =
      (⟨[1, 2], 3, 9, AutoShrinkMode.Aggressive⟩ :
        SliceQueue Nat).shrink_to_fit ∧
    (⟨[1, 2], 3, 9, AutoShrinkMode.Disabled⟩ : SliceQueue Nat).auto_shrink =
      ⟨[1, 2], 3, 9, AutoShrinkMode.Disabled⟩ :=
  ⟨by decide,
   (C5_shrink_trigger Nat ⟨[0], 14, 10, AutoShrinkMode.Opportunistic⟩).2.2.1
     (by decide),
   (C5_shrink_trigger Nat ⟨[1, 2], 3, 9, AutoShrinkMode.Opportunistic⟩).2.2.2.1
     rfl,
   (C5_shrink_trigger Nat ⟨[1, 2], 3, 9, AutoShrinkMode.Aggressive⟩).2.2.2.2.1
     rfl,
   (C5_shrink_trigger Nat ⟨[1, 2], 3, 9, AutoShrinkMode.Disabled⟩).2.2.2.2.2
     rfl⟩

/-- C7 counterexample: the legacy lib.rs implementation, cited by the
claim, accepts a zero limit without terminating abnormally: set_limit(0)
and with_limit(0) both return normally, leaving limit = 0. -/
theorem C7_zero_limit_counterexample :
    LibSliceQueue.set_limit (⟨[], 0, 9⟩ : LibSliceQueue Nat) 0 =
      (⟨[], 0, 0⟩ : LibSliceQueue Nat) ∧
    (LibSliceQueue.with_limit 0 : LibSliceQueue Nat) = ⟨[], 0, 0⟩ :=
  ⟨rfl, rfl⟩

/-- C7 (amended): in the queue.rs implementation, with_limit(0) and
set_limit(0) panic, and for every positive limit L both succeed with the
queue's limit equal to L afterwards; the legacy lib.rs implementation
instead accepts a zero limit without panicking, storing limit = 0. -/
theorem C7_zero_limit_amended (α : Type) (q : SliceQueue α)
    (p : LibSliceQueue α) (L : Nat) (hL : 0 < L) :
    (SliceQueue.with_limit 0 : Option (SliceQueue α)) = none ∧
    q.set_limit 0 = none ∧
    (SliceQueue.with_limit L : Option (SliceQueue α)).map SliceQueue.limit =
      some L ∧
    (q.set_limit L).map SliceQueue.limit = some L ∧
    LibSliceQueue.set_limit p 0 = { p with limit := 0 } ∧
    (LibSliceQueue.with_limit 0 : LibSliceQueue α).limit = 0 := by
  refine ⟨?_, ?_, ?_, ?_, rfl, rfl⟩ <;>
    simp [SliceQueue.with_limit, SliceQueue.set_limit, hL]

/-- Witness for C7 (amended) at limit 5 on concrete queues. -/
theorem C7_zero_limit_amended_witness :
    0 < 5 ∧
    SliceQueue.set_limit
      (⟨[], 0, 7, AutoShrinkMode.Opportunistic⟩ : SliceQueue Nat) 0 = none ∧
    (SliceQueue.set_limit
      (⟨[], 0, 7, AutoShrinkMode.Opportunistic⟩ : SliceQueue Nat) 5).map
        SliceQueue.limit = some 5 :=
  ⟨by decide,
   (C7_zero_limit_amended Nat ⟨[], 0, 7, AutoShrinkMode.Opportunistic⟩
     ⟨[], 0, 7⟩ 5 (by decide)).2.1,
   (C7_zero_limit_amended Nat ⟨[], 0, 7, AutoShrinkMode.Opportunistic⟩
     ⟨[], 0, 7⟩ 5 (by decide)).2.2.2.1⟩

/-- C2: the raw-memory and safe implementations of drop_n, drain_n and
drain_into in mem.rs agree on every input (including where both panic);
however, the legacy lib.rs pop_n, cited by the claim, makes the strategy
observable: on a one-element queue, pop_n(2) panics under the raw-memory
strategy (it indexes backing[n..] with n past the length) while the safe
strategy returns the failure variant with the available element. -/
theorem C2_strategy_equivalence_and_raw_pop_n_divergence :
    (∀ (α : Type) (vec : List α) (n : Nat),
        mem.usafe.drop_n vec n = mem.safe.drop_n vec n) ∧
    (∀ (α : Type) (src : List α) (n : Nat),
        mem.usafe.drain_n src n = mem.safe.drain_n src n) ∧
    (∀ (α : Type) (src dst : List α),
        mem.usafe.drain_into src dst = mem.safe.drain_into src dst) ∧
    LibSliceQueue.pop_n_raw (⟨[10], 1, usizeMax⟩ : LibSliceQueue Nat) 2 =
      none ∧
    LibSliceQueue.pop_n_safe (⟨[10], 1, usizeMax⟩ : LibSliceQueue Nat) 2 =
      (Except.error [10], ⟨[], 1, usizeMax⟩) := by
  refine ⟨?_, ?_, ?_, rfl, rfl⟩
  · intro α vec n
    unfold mem.usafe.drop_n mem.safe.drop_n
    by_cases h : n ≤ vec.length
    · rw [if_pos h, if_pos h, mem.usafe.discard_n_eq_of_le h]
    · rw [if_neg h, if_neg h]
  · intro α src n
    unfold mem.usafe.drain_n mem.safe.drain_n
    by_cases h : n ≤ src.length
    · rw [if_pos h, if_pos h]
      dsimp only
      rw [mem.usafe.discard_n_eq_of_le h]
      rfl
    · rw [if_neg h, if_neg h]
  · intro α src dst
    unfold mem.usafe.drain_into mem.safe.drain_into
    by_cases h : dst.length ≤ src.length
    · rw [if_pos h, if_pos h, mem.usafe.discard_n_eq_of_le h]
      rfl
    · rw [if_neg h, if_neg h]

/-- C4: at the failing input, the legacy lib.rs pop_n under the raw-memory
strategy panics on a shortfall (empty queue, pop_n(1)) instead of
returning the failure variant, while the safe strategy and the queue.rs
implementation return the failure variant carrying all available
elements, and pop on an empty queue returns the error variant. -/
theorem C4_raw_pop_n_panics_on_shortfall :
    LibSliceQueue.pop_n_raw (⟨[], 0, usizeMax⟩ : LibSliceQueue Nat) 1 =
      none ∧
    LibSliceQueue.pop_n_safe (⟨[], 0, usizeMax⟩ : LibSliceQueue Nat) 1 =
      (Except.error [], ⟨[], 0, usizeMax⟩) ∧
    (SliceQueue.pop_n
      (⟨[], 0, usizeMax, AutoShrinkMode.Opportunistic⟩ : SliceQueue Nat)
      1).map Prod.fst = some (Except.error []) ∧
    (SliceQueue.pop
      (⟨[], 0, usizeMax, AutoShrinkMode.Opportunistic⟩ :
        SliceQueue Nat)).1 = Except.error () :=
  ⟨rfl, rfl, rfl, rfl⟩

/-- C3: when m elements are pushed but only r = remaining() fit, push_n
appends exactly the first r elements in order at the tail and returns the
rejected suffix of m - r elements; push_from clamps identically and
returns the count r actually appended; push accepts exactly when
remaining() >= 1 and otherwise returns the element. -/
theorem C3_limit_clamping (α : Type) (q : SliceQueue α) (xs : List α)
    (x : α) (h : q.remaining < xs.length) :
    (q.push_n xs).1 = Except.error (xs.drop q.remaining) ∧
    (q.push_n xs).2.backing = q.backing ++ xs.take q.remaining ∧
    (xs.drop q.remaining).length = xs.length - q.remaining ∧
    (q.push_from xs).1 = Except.error q.remaining ∧
    (q.push_from xs).2.backing = q.backing ++ xs.take q.remaining ∧
    (q.remaining = 0 → (q.push x).1 = Except.error x ∧ (q.push x).2 = q) ∧
    (1 ≤ q.remaining → (q.push x).1 = Except.ok () ∧
      (q.push x).2.backing = q.backing ++ [x]) := by
  have hn : ¬ xs.length ≤ q.remaining := by omega
  have hmin : min q.remaining xs.length = q.remaining :=
    min_eq_left (le_of_lt h)
  have hne : ¬ q.remaining = xs.length := by omega
  refine ⟨?_, ?_, List.length_drop _ _, ?_, ?_, ?_, ?_⟩
  · simp [SliceQueue.push_n, hn]
  · simp [SliceQueue.push_n, hn]
  · simp [SliceQueue.push_from, hmin, hne]
  · simp [SliceQueue.push_from, hmin]
  · intro h0
    have : ¬ 1 ≤ q.remaining := by omega
    simp [SliceQueue.push, this]
  · intro h1
    simp [SliceQueue.push, h1]

/-- Witness for C3: limit 3 with one element stored leaves room for 2, so
pushing three elements accepts two and rejects one; a saturated queue
rejects a single push while an unsaturated one accepts it. -/
theorem C3_limit_clamping_witness :
    (⟨[9], 1, 3, AutoShrinkMode.Opportunistic⟩ :
      SliceQueue Nat).remaining < 3 ∧
    (SliceQueue.push_n
      (⟨[9], 1, 3, AutoShrinkMode.Opportunistic⟩ : SliceQueue Nat)
      [1, 2, 3]).1 = Except.error [3] ∧
    (SliceQueue.push_n
      (⟨[9], 1, 3, AutoShrinkMode.Opportunistic⟩ : SliceQueue Nat)
      [1, 2, 3]).2.backing = [9, 1, 2] ∧
    (SliceQueue.push_from
      (⟨[9], 1, 3, AutoShrinkMode.Opportunistic⟩ : SliceQueue Nat)
      [1, 2, 3]).1 = Except.error 2 ∧
    (SliceQueue.push
      (⟨[9], 1, 1, AutoShrinkMode.Opportunistic⟩ : SliceQueue Nat) 7).1 =
      Except.error 7 ∧
    (SliceQueue.push
      (⟨[9], 1, 3, AutoShrinkMode.Opportunistic⟩ : SliceQueue Nat) 7).1 =
      Except.ok () :=
  ⟨by decide,
   (C3_limit_clamping Nat ⟨[9], 1, 3, AutoShrinkMode.Opportunistic⟩
     [1, 2, 3] 7 (by decide)).1,
   (C3_limit_clamping Nat ⟨[9], 1, 3, AutoShrinkMode.Opportunistic⟩
     [1, 2, 3] 7 (by decide)).2.1,
   (C3_limit_clamping Nat ⟨[9], 1, 3, AutoShrinkMode.Opportunistic⟩
     [1, 2, 3] 7 (by decide)).2.2.2.1,
   ((C3_limit_clamping Nat ⟨[9], 1, 1, AutoShrinkMode.Opportunistic⟩
     [1, 2] 7 (by decide)).2.2.2.2.2.1 (by decide)).1,
   ((C3_limit_clamping Nat ⟨[9], 1, 3, AutoShrinkMode.Opportunistic⟩
     [1, 2, 3] 7 (by decide)).2.2.2.2.2.2 (by decide)).1⟩

/-- C8: reserve_n(n) extends the allocated capacity by at most
min(n, limit - capacity), where limit - capacity is 0 when the capacity
already meets or exceeds the limit; it returns the success variant exactly
when that minimum equals n and otherwise the failure variant carrying the
amount actually reserved; the clip is computed against the current
capacity (in particular, with capacity >= limit nothing is reserved even
if the length is far below the limit). -/
theorem C8_reserve_n_clipping (α : Type) (q : SliceQueue α) (n : Nat)
    (hcap : q.len ≤ q.capacity) :
    ((q.reserve_n n).1 = Except.ok () ↔ min n (q.limit - q.capacity) = n) ∧
    (min n (q.limit - q.capacity) ≠ n →
      (q.reserve_n n).1 = Except.error (min n (q.limit - q.capacity))) ∧
    q.capacity ≤ (q.reserve_n n).2.capacity ∧
    (q.reserve_n n).2.capacity ≤ q.capacity + min n (q.limit - q.capacity) ∧
    (q.limit ≤ q.capacity →
      (q.reserve_n n).2.capacity = q.capacity ∧
      ((q.reserve_n n).1 = Except.ok () ↔ n = 0)) ∧
    (q.reserve_n n).2.backing = q.backing ∧
    (q.reserve_n n).2.limit = q.limit := by
  have hcomm : min (q.limit - q.capacity) n = min n (q.limit - q.capacity) :=
    Nat.min_comm _ _
  unfold SliceQueue.reserve_n
  dsimp only
  rw [hcomm]
  refine ⟨?_, ?_, le_max_left _ _, ?_, ?_, rfl, rfl⟩
  · by_cases hc : min n (q.limit - q.capacity) = n
    · simp [hc]
    · simp [hc]
  · intro hc
    simp [hc]
  · have h1 : q.len + min n (q.limit - q.capacity) ≤
        q.capacity + min n (q.limit - q.capacity) := by omega
    exact max_le (by omega) h1
  · intro hlim
    have h0 : q.limit - q.capacity = 0 := by omega
    rw [h0]
    constructor
    · have : q.len + min n 0 ≤ q.capacity := by
        simp
        omega
      omega
    · by_cases hz : n = 0
      · simp [hz]
      · have : ¬ min n 0 = n := by
          simp
          omega
        simp [this]
        omega

/-- Witness for C8: with capacity 4, length 2 and limit 10, reserving 3
succeeds and the capacity stays within the clip; with capacity 3 above
limit 2, reserving 1 reserves nothing and keeps the capacity. -/
theorem C8_reserve_n_clipping_witness :
    (⟨[1, 2], 4, 10, AutoShrinkMode.Opportunistic⟩ :
      SliceQueue Nat).len ≤ 4 ∧
    (SliceQueue.reserve_n
      (⟨[1, 2], 4, 10, AutoShrinkMode.Opportunistic⟩ : SliceQueue Nat)
      3).1 = Except.ok () ∧
    (SliceQueue.reserve_n
      (⟨[1, 2], 4, 10, AutoShrinkMode.Opportunistic⟩ : SliceQueue Nat)
      3).2.capacity ≤ 4 + min 3 (10 - 4) ∧
    (SliceQueue.reserve_n
      (⟨[1], 3, 2, AutoShrinkMode.Opportunistic⟩ : SliceQueue Nat)
      1).1 = Except.error 0 ∧
    (SliceQueue.reserve_n
      (⟨[1], 3, 2, AutoShrinkMode.Opportunistic⟩ : SliceQueue Nat)
      1).2.capacity = 3 :=
  ⟨by decide,
   (C8_reserve_n_clipping Nat ⟨[1, 2], 4, 10, AutoShrinkMode.Opportunistic⟩
     3 (by decide)).1.mpr (by decide),
   (C8_reserve_n_clipping Nat ⟨[1, 2], 4, 10, AutoShrinkMode.Opportunistic⟩
     3 (by decide)).2.2.2.1,
   (C8_reserve_n_clipping Nat ⟨[1], 3, 2, AutoShrinkMode.Opportunistic⟩
     1 (by decide)).2.1 (by decide),
   ((C8_reserve_n_clipping Nat ⟨[1], 3, 2, AutoShrinkMode.Opportunistic⟩
     1 (by decide)).2.2.2.2.1 (by decide)).1⟩

lemma mem.drain_n_length {α : Type} (src : List α) :
    mem.drain_n src src.length = some (src, []) := by
  rw [mem.drain_n_eq_of_le (le_refl _), List.take_length, List.drop_length]

lemma SliceQueue.pop_n_full {α : Type} (q : SliceQueue α) (S : List α)
    (h : q.backing = S) :
    (q.pop_n S.length).map Prod.fst = some (Except.ok S) ∧
    (q.pop_n S.length).map (fun p => p.2.backing) = some [] := by
  subst h
  unfold SliceQueue.pop_n
  dsimp only
  rw [SliceQueue.len_eq, min_self, mem.drain_n_length]
  simp

/-- C1: pushing a sequence S (via push_n or via push_from) into a fresh
queue whose limit is at least the length of S succeeds completely, and
popping len(S) elements afterwards returns the success variant carrying
exactly S in order, leaving the queue empty. -/
theorem C1_round_trip (α : Type) (S : List α) (q : SliceQueue α)
    (hempty : q.backing = []) (hlim : S.length ≤ q.limit) :
    (q.push_n S).1 = Except.ok () ∧
    ((q.push_n S).2.pop_n S.length).map Prod.fst = some (Except.ok S) ∧
    ((q.push_n S).2.pop_n S.length).map (fun p => p.2.backing) = some [] ∧
    (q.push_from S).1 = Except.ok () ∧
    ((q.push_from S).2.pop_n S.length).map Prod.fst = some (Except.ok S) ∧
    ((q.push_from S).2.pop_n S.length).map (fun p => p.2.backing) =
      some [] := by
  have hlen : q.len = 0 := by rw [SliceQueue.len_eq, hempty]; rfl
  have hrem : S.length ≤ q.remaining := by
    unfold SliceQueue.remaining
    omega
  have hmin : min q.remaining S.length = S.length := min_eq_right hrem
  have hb1 : (q.push_n S).2.backing = S := by
    simp [SliceQueue.push_n, hrem, hempty]
  have hb2 : (q.push_from S).2.backing = S := by
    simp [SliceQueue.push_from, hmin, hempty]
  refine ⟨?_, (SliceQueue.pop_n_full _ S hb1).1,
    (SliceQueue.pop_n_full _ S hb1).2, ?_,
    (SliceQueue.pop_n_full _ S hb2).1, (SliceQueue.pop_n_full _ S hb2).2⟩
  · simp [SliceQueue.push_n, hrem]
  · simp [SliceQueue.push_from, hmin]

/-- Witness for C1: the three elements 1, 2, 3 pushed into a fresh queue
with limit 5 round-trip through pop_n in order. -/
theorem C1_round_trip_witness :
    (⟨[], 0, 5, AutoShrinkMode.Opportunistic⟩ :
      SliceQueue Nat).backing = [] ∧
    ([1, 2, 3] : List Nat).length ≤ 5 ∧
    (SliceQueue.push_n
      (⟨[], 0, 5, AutoShrinkMode.Opportunistic⟩ : SliceQueue Nat)
      [1, 2, 3]).1 = Except.ok () ∧
    ((SliceQueue.push_n
      (⟨[], 0, 5, AutoShrinkMode.Opportunistic⟩ : SliceQueue Nat)
      [1, 2, 3]).2.pop_n 3).map Prod.fst = some (Except.ok [1, 2, 3]) ∧
    ((SliceQueue.push_n
      (⟨[], 0, 5, AutoShrinkMode.Opportunistic⟩ : SliceQueue Nat)
      [1, 2, 3]).2.pop_n 3).map (fun p => p.2.backing) = some [] ∧
    ((SliceQueue.push_from
      (⟨[], 0, 5, AutoShrinkMode.Opportunistic⟩ : SliceQueue Nat)
      [1, 2, 3]).2.pop_n 3).map Prod.fst = some (Except.ok [1, 2, 3]) :=
  ⟨rfl, by decide,
   (C1_round_trip Nat [1, 2, 3] ⟨[], 0, 5, AutoShrinkMode.Opportunistic⟩
     rfl (by decide)).1,
   (C1_round_trip Nat [1, 2, 3] ⟨[], 0, 5, AutoShrinkMode.Opportunistic⟩
     rfl (by decide)).2.1,
   (C1_round_trip Nat [1, 2, 3] ⟨[], 0, 5, AutoShrinkMode.Opportunistic⟩
     rfl (by decide)).2.2.1,
   (C1_round_trip Nat [1, 2, 3] ⟨[], 0, 5, AutoShrinkMode.Opportunistic⟩
     rfl (by decide)).2.2.2.2.1⟩

/-- C6: for a queue with len + n <= limit, push_in_place is atomic: when
the fill callback fails, the length and contents are unchanged (all n
reserved default slots released); when it returns success(k) with k <= n,
the length grows by exactly k and the first k slots as written by the
callback become the new tail (the n - k unused slots released).  The
callback is modelled as returning its result together with the mutated
slice, which Rust keeps at length n (hypothesis hf). -/
theorem C6_push_in_place_atomicity (α ε : Type) [Inhabited α]
    (q : SliceQueue α) (n : Nat) (f : List α → Except ε Nat × List α)
    (hn : q.len + n ≤ q.limit)
    (hf : (f (List.replicate n default)).2.length = n) :
    (∀ e, (f (List.replicate n default)).1 = Except.error e →
      (q.push_in_place n f).map (fun p => (p.1, p.2.backing)) =
        some (Except.error e, q.backing)) ∧
    (∀ k, (f (List.replicate n default)).1 = Except.ok k → k ≤ n →
      (q.push_in_place n f).map (fun p => (p.1, p.2.backing)) =
        some (Except.ok k,
          q.backing ++ (f (List.replicate n default)).2.take k) ∧
      (q.push_in_place n f).map (fun p => p.2.len) =
        some (q.len + k)) := by
  constructor
  · intro e he
    unfold SliceQueue.push_in_place
    rw [if_pos hn]
    dsimp only
    rw [he]
    dsimp only [Option.map_some']
    rw [Nat.add_zero, SliceQueue.len_eq, List.take_left]
    simp
  · intro k hk hkn
    unfold SliceQueue.push_in_place
    rw [if_pos hn]
    dsimp only
    rw [hk]
    dsimp only
    rw [if_neg (by omega)]
    dsimp only [Option.map_some']
    have htake : (q.backing ++ (f (List.replicate n default)).2).take
        (q.len + k) = q.backing ++ (f (List.replicate n default)).2.take k := by
      rw [SliceQueue.len_eq]
      exact List.take_append k
    rw [htake]
    refine ⟨by simp, ?_⟩
    simp only [SliceQueue.shrink_opportunistic_backing, SliceQueue.len_eq]
    rw [List.length_append, List.length_take, hf]
    have hmin : k ⊓ n = k := by omega
    rw [hmin]

/-- Witness for C6: pushing in place with n = 3 on a one-element queue;
a callback reversing its slice and claiming 2 grows the queue by 2, while
a failing callback leaves the queue unchanged. -/
theorem C6_push_in_place_atomicity_witness :
    (⟨[9], 1, 10, AutoShrinkMode.Opportunistic⟩ :
      SliceQueue Nat).len + 3 ≤ 10 ∧
    (SliceQueue.push_in_place
      (⟨[9], 1, 10, AutoShrinkMode.Opportunistic⟩ : SliceQueue Nat) 3
      (fun s => ((Except.ok 2 : Except Unit Nat), s.reverse))).map
        (fun p => (p.1, p.2.backing)) =
      some (Except.ok 2, [9, 0, 0]) ∧
    (SliceQueue.push_in_place
      (⟨[9], 1, 10, AutoShrinkMode.Opportunistic⟩ : SliceQueue Nat) 3
      (fun s => ((Except.ok 2 : Except Unit Nat), s.reverse))).map
        (fun p => p.2.len) = some 3 ∧
    (SliceQueue.push_in_place
      (⟨[9], 1, 10, AutoShrinkMode.Opportunistic⟩ : SliceQueue Nat) 3
      (fun s => ((Except.error () : Except Unit Nat), s))).map
        (fun p => (p.1, p.2.backing)) =
      some (Except.error (), [9]) :=
  ⟨by decide,
   ((C6_push_in_place_atomicity Nat Unit
     ⟨[9], 1, 10, AutoShrinkMode.Opportunistic⟩ 3
     (fun s => ((Except.ok 2 : Except Unit Nat), s.reverse))
     (by decide) rfl).2 2 rfl (by decide)).1,
   ((C6_push_in_place_atomicity Nat Unit
     ⟨[9], 1, 10, AutoShrinkMode.Opportunistic⟩ 3
     (fun s => ((Except.ok 2 : Except Unit Nat), s.reverse))
     (by decide) rfl).2 2 rfl (by decide)).2,
   (C6_push_in_place_atomicity Nat Unit
     ⟨[9], 1, 10, AutoShrinkMode.Opportunistic⟩ 3
     (fun s => ((Except.error () : Except Unit Nat), s))
     (by decide) rfl).1 () rfl⟩

lemma applyOp_limit_invariant {α : Type} [Inhabited α] {q q2 : SliceQueue α}
    {op : Op α} (h : applyOp q op = some q2) (hinv : q.len ≤ q.limit) :
    q2.len ≤ q2.limit := by
  cases op with
  | push x =>
      simp only [applyOp, Option.some_inj] at h
      subst h
      unfold SliceQueue.push
      split
      · simp only [SliceQueue.len_eq, SliceQueue.remaining] at *
        simp only [List.length_append, List.length_singleton]
        omega
      · exact hinv
  | push_n xs =>
      simp only [applyOp, Option.some_inj] at h
      subst h
      unfold SliceQueue.push_n
      split
      · simp only [SliceQueue.len_eq, SliceQueue.remaining] at *
        simp only [List.length_append]
        omega
      · simp only [SliceQueue.len_eq, SliceQueue.remaining] at *
        simp only [List.length_append, List.length_take]
        omega
  | push_from xs =>
      simp only [applyOp, Option.some_inj] at h
      subst h
      unfold SliceQueue.push_from
      simp only [SliceQueue.len_eq, SliceQueue.remaining] at *
      simp only [List.length_append, List.length_take]
      omega
  | push_in_place n f =>
      simp only [applyOp] at h
      unfold SliceQueue.push_in_place at h
      by_cases hc : q.len + n ≤ q.limit
      · rw [if_pos hc] at h
        dsimp only at h
        rcases hr : (f (List.replicate n default)).1 with e | k
        · rw [hr] at h
          dsimp only [Option.map_some'] at h
          rw [Option.some_inj] at h
          subst h
          simp only [SliceQueue.shrink_opportunistic_backing,
            SliceQueue.shrink_opportunistic_limit, SliceQueue.len_eq]
          simp only [List.length_take, List.length_append]
          simp only [SliceQueue.len_eq] at hc hinv
          omega
        · rw [hr] at h
          dsimp only at h
          by_cases hk : n < k
          · rw [if_pos hk] at h
            simp at h
          · rw [if_neg hk] at h
            dsimp only [Option.map_some'] at h
            rw [Option.some_inj] at h
            subst h
            simp only [SliceQueue.shrink_opportunistic_backing,
              SliceQueue.shrink_opportunistic_limit, SliceQueue.len_eq]
            simp only [List.length_take, List.length_append]
            simp only [SliceQueue.len_eq] at hc hinv
            omega
      · rw [if_neg hc] at h
        simp at h
  | pop =>
      simp only [applyOp, Option.some_inj] at h
      subst h
      unfold SliceQueue.pop
      cases hb : q.backing with
      | nil => exact hinv
      | cons y rest =>
          simp only [SliceQueue.auto_shrink_limit]
          have : (SliceQueue.auto_shrink
              { q with backing := rest }).backing = rest :=
            SliceQueue.auto_shrink_backing _
          simp only [SliceQueue.len_eq, this]
          simp only [SliceQueue.len_eq, hb] at hinv
          simp only [List.length_cons] at hinv
          omega
  | pop_n n =>
      simp only [applyOp] at h
      unfold SliceQueue.pop_n at h
      dsimp only at h
      rw [mem.drain_n_eq_of_le (by
        rw [← SliceQueue.len_eq]
        exact min_le_left _ _)] at h
      dsimp only [Option.map_some'] at h
      rw [Option.some_inj] at h
      rw [← h]
      simp only [SliceQueue.len_eq, SliceQueue.auto_shrink_backing,
        SliceQueue.auto_shrink_limit, List.length_drop]
      simp only [SliceQueue.len_eq] at hinv
      omega
  | pop_into dst =>
      simp only [applyOp] at h
      unfold SliceQueue.pop_into at h
      dsimp only at h
      rw [mem.drain_into_eq_of_le (by
        simp only [List.length_take]
        rw [← SliceQueue.len_eq]
        exact le_trans (min_le_left _ _) (le_trans (min_le_left _ _)
          (le_of_eq (SliceQueue.len_eq q))))] at h
      dsimp only [Option.map_some'] at h
      rw [Option.some_inj] at h
      rw [← h]
      simp only [SliceQueue.len_eq, SliceQueue.auto_shrink_backing,
        SliceQueue.auto_shrink_limit, List.length_drop]
      simp only [SliceQueue.len_eq] at hinv
      omega
  | drop_n n =>
      simp only [applyOp] at h
      unfold SliceQueue.drop_n at h
      dsimp only at h
      rw [mem.drop_n_eq_of_le (by
        rw [← SliceQueue.len_eq]
        exact min_le_left _ _)] at h
      dsimp only [Option.map_some'] at h
      rw [Option.some_inj] at h
      rw [← h]
      simp only [SliceQueue.len_eq, SliceQueue.auto_shrink_backing,
        SliceQueue.auto_shrink_limit, List.length_drop]
      simp only [SliceQueue.len_eq] at hinv
      omega

/-- C9: fresh queues satisfy length <= limit, and every push, push_n,
push_from, push_in_place, pop, pop_n, pop_into and drop_n operation
preserves length <= limit, so the invariant holds after every operation of
any such sequence; no append operation grows the length past the limit. -/
theorem C9_limit_invariant (α : Type) [Inhabited α] (ops : List (Op α))
    (q q2 q0 : SliceQueue α) (c L : Nat)
    (hinv : q.len ≤ q.limit) (hrun : runOps q ops = some q2)
    (hL : SliceQueue.with_limit L = some q0) :
    q2.len ≤ q2.limit ∧
    (SliceQueue.new : SliceQueue α).len ≤
      (SliceQueue.new : SliceQueue α).limit ∧
    (SliceQueue.with_capacity c : SliceQueue α).len ≤
      (SliceQueue.with_capacity c : SliceQueue α).limit ∧
    q0.len ≤ q0.limit := by
  have main : ∀ (ops : List (Op α)) (q : SliceQueue α), q.len ≤ q.limit →
      runOps q ops = some q2 → q2.len ≤ q2.limit := by
    intro ops
    induction ops with
    | nil =>
        intro q h1 h2
        simp only [runOps, Option.some_inj] at h2
        subst h2
        exact h1
    | cons op ops ih =>
        intro q h1 h2
        simp only [runOps] at h2
        cases happ : applyOp q op with
        | none =>
            rw [happ] at h2
            simp at h2
        | some q1 =>
            rw [happ] at h2
            simp only [Option.some_bind] at h2
            exact ih q1 (applyOp_limit_invariant happ h1) h2
  refine ⟨main ops q hinv hrun, Nat.zero_le _, Nat.zero_le _, ?_⟩
  unfold SliceQueue.with_limit at hL
  by_cases h0 : 0 < L
  · rw [if_pos h0] at hL
    rw [Option.some_inj] at hL
    subst hL
    exact Nat.zero_le _
  · rw [if_neg h0] at hL
    simp at hL

/-- Witness for C9: pushing 3 and popping one element on a fresh queue
with limit 5 keeps the length below the limit. -/
theorem C9_limit_invariant_witness :
    (⟨[], 0, 5, AutoShrinkMode.Opportunistic⟩ : SliceQueue Nat).len ≤ 5 ∧
    runOps (⟨[], 0, 5, AutoShrinkMode.Opportunistic⟩ : SliceQueue Nat)
      [Op.push 3, Op.pop_n 1] =
      some ⟨[], 1, 5, AutoShrinkMode.Opportunistic⟩ ∧
    (SliceQueue.with_limit 5 : Option (SliceQueue Nat)) =
      some ⟨[], 0, 5, AutoShrinkMode.Opportunistic⟩ ∧
    (⟨[], 1, 5, AutoShrinkMode.Opportunistic⟩ : SliceQueue Nat).len ≤
      (⟨[], 1, 5, AutoShrinkMode.Opportunistic⟩ : SliceQueue Nat).limit ∧
    (⟨[], 0, 5, AutoShrinkMode.Opportunistic⟩ : SliceQueue Nat).len ≤
      (⟨[], 0, 5, AutoShrinkMode.Opportunistic⟩ : SliceQueue Nat).limit :=
  ⟨by decide, by rfl, by rfl,
   (C9_limit_invariant Nat [Op.push 3, Op.pop_n 1]
     ⟨[], 0, 5, AutoShrinkMode.Opportunistic⟩
     ⟨[], 1, 5, AutoShrinkMode.Opportunistic⟩
     ⟨[], 0, 5, AutoShrinkMode.Opportunistic⟩ 0 5
     (by decide) (by rfl) (by rfl)).1,
   (C9_limit_invariant Nat [Op.push 3, Op.pop_n 1]
     ⟨[], 0, 5, AutoShrinkMode.Opportunistic⟩
     ⟨[], 1, 5, AutoShrinkMode.Opportunistic⟩
     ⟨[], 0, 5, AutoShrinkMode.Opportunistic⟩ 0 5
     (by decide) (by rfl) (by rfl)).2.2.2⟩
